import Mathlib

/-!
Shallow embedding of the football prediction engine of this repository
(the strongest-market variant, `AI Picks v5.2.2`, together with the parts of
the 1X2-first `server.js` variant that the claims reference).

Conventions of the embedding:
* JavaScript numbers are modelled as `ℚ` where the source only adds,
  multiplies and divides (team seeds, form statistics, league baselines), and
  as `ℝ` where the source calls `Math.exp`, `Math.pow` or `Math.tanh`
  (the Poisson probability engine and the expected-goals model).
* JavaScript objects with possibly-missing fields are modelled with `Option`.
* `Map` objects and the static rating/alias tables are association lists;
  the `SEED_ELO[k] ?? ...` lookup is modelled as an own-property lookup.
* String lowercasing is ASCII lowercasing.  The subsequent
  `replace(/[^a-z0-9]+/g,' ')` step erases every character that is not an
  ASCII lowercase letter or digit, so the two agree on the normalisation
  result except for exotic code points whose Unicode lowercase is ASCII.
* Network, time formatting (`Intl`) and the HTTP layer are external: fixture
  attributes that the source derives from them (`hourLocal`, the kickoff
  label) are modelled as input data, and the `try`/`catch` around one
  fixture's upstream fetches is modelled by an `Except`-valued oracle.
-/

namespace FootballPred

/-! ### Configuration constants (env defaults from the source header) -/

def START_HOUR : ℕ := 11

def END_HOUR : ℕ := 24

def FALLBACK_DEMO : Bool := false

/-- `STRONG_DIFF_TILT` default `220` (Elo mismatch threshold). -/
def STRONG_DIFF_TILT : ℚ := 220

/-! ### Team-name normalisation (`normTeam`) -/

/-- ASCII lowercasing of one character (`toLowerCase` restricted to ASCII). -/
def lowerChar (c : Char) : Char :=
  if 65 ≤ c.toNat ∧ c.toNat ≤ 90 then Char.ofNat (c.toNat + 32) else c

/-- Characters kept by the `[^a-z0-9]` class after lowercasing. -/
def isKeptChar (c : Char) : Bool :=
  (97 ≤ c.toNat && c.toNat ≤ 122) || (48 ≤ c.toNat && c.toNat ≤ 57)

/-- Replace a character that the regex `[^a-z0-9]` matches by a blank. -/
def blankOut (c : Char) : Char := if isKeptChar c then c else ' '

/-- Collapse maximal runs of blanks to a single blank, so that mapping
`blankOut` and then squeezing agrees with `replace(/[^a-z0-9]+/g,' ')`. -/
def squeezeBlanks : List Char → List Char
  | [] => []
  | [c] => [c]
  | c :: d :: rest =>
    if c = ' ' ∧ d = ' ' then squeezeBlanks (d :: rest)
    else c :: squeezeBlanks (d :: rest)

/-- `trim()`: after `blankOut` the only whitespace left is the blank. -/
def trimBlanks (l : List Char) : List Char :=
  ((l.dropWhile (· == ' ')).reverse.dropWhile (· == ' ')).reverse

/-- `normTeam(s)`: lowercase, replace `[^a-z0-9]+` runs by one space, trim. -/
def normTeam (s : String) : String :=
  ⟨trimBlanks (squeezeBlanks ((s.data.map lowerChar).map blankOut))⟩

/-! ### Alias table and Elo-like seeds -/

def ALIAS : List (String × String) :=
  [("paris saint germain", "psg"), ("paris saint germain fc", "psg"),
   ("manchester city fc", "manchester city"), ("manchester united fc", "manchester united"),
   ("fc barcelona", "barcelona"), ("fc bayern munich", "bayern munich"),
   ("fc internazionale milano", "inter"), ("fc internazionale", "inter"),
   ("juventus fc", "juventus"), ("ac milan", "milan"),
   ("atletico de madrid", "atletico madrid"), ("ssc napoli", "napoli"),
   ("as roma", "roma"), ("tottenham hotspur", "tottenham"),
   ("fenerbahce istanbul", "fenerbahce"), ("galatasaray sk", "galatasaray"),
   ("besiktas jk", "besiktas")]

/-- `canonicalKey(name)`: resolve an alias of the normalised name, else the
normalised name itself. -/
def canonicalKey (name : String) : String :=
  match ALIAS.lookup (normTeam name) with
  | some t => t
  | none => normTeam name

def SEED_ELO : List (String × ℚ) :=
  [("psg", 1850), ("paris saint germain", 1850),
   ("real madrid", 1850), ("barcelona", 1820), ("manchester city", 1880),
   ("liverpool", 1820), ("arsenal", 1800),
   ("chelsea", 1750), ("manchester united", 1760), ("bayern munich", 1900),
   ("inter", 1820), ("juventus", 1800),
   ("milan", 1780), ("atletico madrid", 1800), ("napoli", 1780),
   ("roma", 1740), ("tottenham", 1760),
   ("galatasaray", 1700), ("fenerbahce", 1680), ("besiktas", 1650),
   ("trabzonspor", 1620), ("nantes", 1600)]

/-- `seedOf(name) = SEED_ELO[canonicalKey(name)] ?? SEED_ELO[normTeam(name)] ?? 1500`. -/
def seedOf (name : String) : ℚ :=
  match SEED_ELO.lookup (canonicalKey name) with
  | some v => v
  | none =>
    match SEED_ELO.lookup (normTeam name) with
    | some v => v
    | none => 1500

/-! ### League baseline goals per match -/

def lowerStr (s : String) : String := ⟨s.data.map lowerChar⟩

/-- Substring occurrence test on character lists. -/
def containsSub (needle : List Char) : List Char → Bool
  | [] => needle.isEmpty
  | c :: rest => needle.isPrefixOf (c :: rest) || containsSub needle rest

/-- `k.includes(frag)`. -/
def containsFrag (k : String) (frag : String) : Bool := containsSub frag.data k.data

def leagueBaseGpm (league : String) : ℚ :=
  let k := lowerStr league
  if containsFrag k "super lig" || containsFrag k "süper lig" then 2.7
  else if containsFrag k "premier" then 2.9
  else if containsFrag k "la liga" then 2.6
  else if containsFrag k "bundesliga" then 3.1
  else if containsFrag k "serie a" then 2.5
  else if containsFrag k "ligue 1" then 2.75
  else if containsFrag k "eredivisie" then 3.0
  else if containsFrag k "primeira" then 2.5
  else 2.65

/-! ### Standings and recent matches data model -/

/-- A full-time or regular-time score object whose fields may be `null`. -/
structure GoalsPair where
  home : Option ℚ
  away : Option ℚ
  deriving DecidableEq

/-- One finished match as consumed by the form aggregator. -/
structure MatchRec where
  homeTeamId : Option ℕ
  awayTeamId : Option ℕ
  fullTime : Option GoalsPair
  regularTime : Option GoalsPair
  deriving DecidableEq

/-- A per-competition standings pack: team id to table position, table size. -/
structure StandingsPack where
  map : List (ℕ × ℕ)
  size : ℕ
  deriving DecidableEq

/-- `m.score?.fullTime || m.score?.regularTime || {}`. -/
def tsOf (m : MatchRec) : GoalsPair :=
  match m.fullTime with
  | some t => t
  | none =>
    match m.regularTime with
    | some t => t
    | none => ⟨none, none⟩

/-- Goals scored by the perspective team (`ts.home ?? 0` / `ts.away ?? 0`). -/
def forGoalsOf (teamId : Option ℕ) (m : MatchRec) : ℚ :=
  if m.homeTeamId == teamId then ((tsOf m).home.getD 0) else ((tsOf m).away.getD 0)

/-- Goals conceded by the perspective team. -/
def agGoalsOf (teamId : Option ℕ) (m : MatchRec) : ℚ :=
  if m.homeTeamId == teamId then ((tsOf m).away.getD 0) else ((tsOf m).home.getD 0)

/-- `matchPoints`: 3 for a win, 1 for a draw, 0 for a loss. -/
def matchPoints (forGoals agGoals : ℚ) : ℚ :=
  if agGoals < forGoals then 3 else if forGoals = agGoals then 1 else 0

/-! ### Form aggregator (`formStatsAdvanced`) -/

/-- Recency weights for indices 0–4. -/
def REC : List ℚ := [1.00, 0.92, 0.85, 0.78, 0.72]

/-- `Math.ceil(size/2)`. -/
def ceilHalf (n : ℕ) : ℕ := (n + 1) / 2

/-- `standingsPack.size || 20`. -/
def effSize (pack : StandingsPack) : ℕ := if pack.size = 0 then 20 else pack.size

/-- The opponent's team id from the perspective team's point of view. -/
def oppIdOf (teamId : Option ℕ) (m : MatchRec) : Option ℕ :=
  if m.homeTeamId == teamId then m.awayTeamId else m.homeTeamId

/-- `oppId ? (posMap.get(oppId) || Math.ceil(size/2)) : Math.ceil(size/2)`;
a stored position 0 is falsy in the source and also yields the midpoint. -/
def oppPosOf (teamId : Option ℕ) (m : MatchRec) (pack : StandingsPack) : ℕ :=
  match oppIdOf teamId m with
  | some o =>
    match pack.map.lookup o with
    | some p => if p = 0 then ceilHalf (effSize pack) else p
    | none => ceilHalf (effSize pack)
  | none => ceilHalf (effSize pack)

/-- Accumulator of the `matches.forEach` loop. -/
structure FormAcc where
  pts : ℚ
  gf : ℚ
  ga : ℚ
  oppAvg : ℚ
  oppCnt : ℕ
  adjScore : ℚ

/-- One iteration of the `matches.forEach((m, idx) => ...)` body. -/
def formStep (teamId : Option ℕ) (pack : StandingsPack) (acc : FormAcc)
    (im : ℕ × MatchRec) : FormAcc :=
  let idx := im.1
  let m := im.2
  let isHome := m.homeTeamId == teamId
  let forGoals := forGoalsOf teamId m
  let agGoals := agGoalsOf teamId m
  let ptsThis := matchPoints forGoals agGoals
  let oppPos : ℚ := (oppPosOf teamId m pack : ℕ)
  let size : ℚ := (effSize pack : ℕ)
  let norm := (size - oppPos) / size - 0.5
  let oppFactor := 1 + norm * 0.8
  let venueFactor : ℚ := if isHome then 1.00 else 1.15
  let w := REC.getD idx 0.7
  let score := ptsThis * oppFactor * venueFactor * w
  { pts := acc.pts + ptsThis, gf := acc.gf + forGoals, ga := acc.ga + agGoals,
    oppAvg := acc.oppAvg + oppPos, oppCnt := acc.oppCnt + 1,
    adjScore := acc.adjScore + score }

/-- The five aggregate form statistics returned by `formStatsAdvanced`. -/
structure FormStats where
  ppm : ℚ
  gfpm : ℚ
  gapm : ℚ
  oppAvgPos : ℚ
  formStrength : ℚ

/-- `formStatsAdvanced(teamId, matches, standingsPack)`. -/
def formStatsAdvanced (teamId : Option ℕ) (ms : List MatchRec)
    (pack : StandingsPack) : FormStats :=
  let acc := ms.enum.foldl (formStep teamId pack) ⟨0, 0, 0, 0, 0, 0⟩
  let gPlayed : ℚ := if ms.length = 0 then 1 else (ms.length : ℚ)
  { ppm := acc.pts / gPlayed
    gfpm := acc.gf / gPlayed
    gapm := acc.ga / gPlayed
    oppAvgPos :=
      if acc.oppCnt = 0 then ((ceilHalf (effSize pack) : ℕ) : ℚ)
      else acc.oppAvg / (acc.oppCnt : ℚ)
    formStrength := acc.adjScore / 12.0 }

/-! ### Specification-level sums used to state the form-average claims -/

/-- Total points over a match list (specification-level restatement). -/
def ptsTotal (teamId : Option ℕ) (ms : List MatchRec) : ℚ :=
  (ms.map (fun m => matchPoints (forGoalsOf teamId m) (agGoalsOf teamId m))).sum

/-- Total goals scored over a match list. -/
def goalsForTotal (teamId : Option ℕ) (ms : List MatchRec) : ℚ :=
  (ms.map (fun m => forGoalsOf teamId m)).sum

/-- Total goals conceded over a match list. -/
def goalsAgainstTotal (teamId : Option ℕ) (ms : List MatchRec) : ℚ :=
  (ms.map (fun m => agGoalsOf teamId m)).sum

/-! ### Sample data for concrete instantiations -/

def sampleMatch1 : MatchRec :=
  { homeTeamId := some 1, awayTeamId := some 2,
    fullTime := some ⟨some 2, some 0⟩, regularTime := none }

def sampleMatch2 : MatchRec :=
  { homeTeamId := some 3, awayTeamId := some 1,
    fullTime := some ⟨some 1, some 1⟩, regularTime := none }

def sampleMatchMissing : MatchRec :=
  { homeTeamId := some 1, awayTeamId := some 99,
    fullTime := some ⟨some 1, some 0⟩, regularTime := none }

def samplePack : StandingsPack := { map := [(2, 3), (3, 18)], size := 20 }

/-! ### Poisson probability engine (real-valued) -/

noncomputable section

/-- `SHARPEN_TAU_1X2` default `1.25`. -/
def SHARPEN_TAU_1X2 : ℝ := 1.25

/-- `EDGE_MIN` default `0.08`. -/
def EDGE_MIN : ℝ := 0.08

/-- `poisPmf(lam, k) = exp(-lam) * lam^k / fac(k)`. -/
def poisPmf (lam : ℝ) (k : ℕ) : ℝ :=
  Real.exp (-lam) * lam ^ k / (Nat.factorial k : ℕ)

/-- `poisCdf(lam, k)`: sum of the pmf for `0..k`. -/
def poisCdf (lam : ℝ) (k : ℕ) : ℝ :=
  ∑ i ∈ Finset.range (k + 1), poisPmf lam i

/-- One bucket of the truncated `probs1X2` grid: the sum of
`poisPmf(lh,i) * poisPmf(la,j)` over the grid cells selected by `keep`. -/
def gridSum (lh la : ℝ) (cap : ℕ) (keep : ℕ → ℕ → Bool) : ℝ :=
  ∑ i ∈ Finset.range (cap + 1), ∑ j ∈ Finset.range (cap + 1),
    if keep i j then poisPmf lh i * poisPmf la j else 0

/-- The three 1X2 probabilities. -/
structure Probs3 where
  pH : ℝ
  pD : ℝ
  pA : ℝ

/-- `probs1X2(lh, la, cap)`: truncated-grid Poisson probabilities, bucketed
into home win / draw / away win and normalised by `s = pH+pD+pA || 1`. -/
def probs1X2 (lh la : ℝ) (cap : ℕ) : Probs3 :=
  let pH := gridSum lh la cap (fun i j => decide (j < i))
  let pD := gridSum lh la cap (fun i j => decide (i = j))
  let pA := gridSum lh la cap (fun i j => decide (i < j))
  let s0 := pH + pD + pA
  let s := if s0 = 0 then 1 else s0
  ⟨pH / s, pD / s, pA / s⟩

/-- `sharpen3(pH, pD, pA, tau)`: raise to the power `tau`, renormalise by
`Z = a+b+c || 1`. -/
def sharpen3 (pH pD pA tau : ℝ) : Probs3 :=
  let a := pH ^ tau
  let b := pD ^ tau
  let c := pA ^ tau
  let z0 := a + b + c
  let z := if z0 = 0 then 1 else z0
  ⟨a / z, b / z, c / z⟩

/-! ### Strongest-market selector (`chooseStrongest`) -/

/-- A market candidate as built by `chooseStrongest`. -/
structure Cand where
  market : String
  label : String
  prob : ℝ
  edge : ℝ
  base : ℝ
  note : Option String

instance : Inhabited Cand := ⟨⟨"", "", 0, 0, 0, none⟩⟩

/-- The sharpened 1X2 probabilities used by the selector. -/
def sharp1X2 (lh la : ℝ) : Probs3 :=
  let p := probs1X2 lh la 12
  sharpen3 p.pH p.pD p.pA SHARPEN_TAU_1X2

/-- The leading 1X2 outcome: stable sort of the three labelled outcomes by
probability descending, then the first element. -/
def best1 (lh la : ℝ) : String × ℝ :=
  (([("1", (sharp1X2 lh la).pH), ("X", (sharp1X2 lh la).pD),
     ("2", (sharp1X2 lh la).pA)]).mergeSort
    (fun x y => decide (y.2 ≤ x.2))).headI

/-- The 1X2 candidate with its edge over the neutral baseline 1/3. -/
def cand1X2 (lh la : ℝ) : Cand :=
  ⟨"1X2", (best1 lh la).1, (best1 lh la).2, (best1 lh la).2 - 1 / 3, 0.33, none⟩

/-- `pU25 = poisCdf(lh+la, 2)`. -/
def pU25of (lh la : ℝ) : ℝ := poisCdf (lh + la) 2

def pO25of (lh la : ℝ) : ℝ := 1 - pU25of lh la

/-- The leading Over/Under-2.5 outcome (`pO25 >= pU25 ? Over : Under`). -/
def bestTot (lh la : ℝ) : String × ℝ :=
  if pU25of lh la ≤ pO25of lh la then ("Over 2.5", pO25of lh la)
  else ("Under 2.5", pU25of lh la)

/-- The Over/Under candidate with its edge over the neutral baseline 1/2. -/
def candTot (lh la : ℝ) : Cand :=
  ⟨"Over/Under 2.5", (bestTot lh la).1, (bestTot lh la).2,
    (bestTot lh la).2 - 1 / 2, 0.50, none⟩

/-- `pBTTS = 1 - (exp(-lh) + exp(-la) - exp(-lh-la))`. -/
def pBTTSof (lh la : ℝ) : ℝ :=
  1 - (Real.exp (-lh) + Real.exp (-la) - Real.exp (-lh - la))

/-- The leading BTTS outcome (`pBTTS >= 0.5 ? Yes : No`). -/
def bestBTTS (lh la : ℝ) : String × ℝ :=
  if 1 / 2 ≤ pBTTSof lh la then ("Yes", pBTTSof lh la)
  else ("No", 1 - pBTTSof lh la)

/-- The BTTS candidate with its edge over the neutral baseline 1/2. -/
def candBTTS (lh la : ℝ) : Cand :=
  ⟨"BTTS", (bestBTTS lh la).1, (bestBTTS lh la).2,
    (bestBTTS lh la).2 - 1 / 2, 0.50, none⟩

/-- The candidate array in source order: 1X2, Over/Under 2.5, BTTS. -/
def marketCands (lh la : ℝ) : List Cand :=
  [cand1X2 lh la, candTot lh la, candBTTS lh la]

/-- The candidates sorted by edge descending (stable sort). -/
def rankedCands (lh la : ℝ) : List Cand :=
  (marketCands lh la).mergeSort (fun x y => decide (y.edge ≤ x.edge))

/-- `candidates[0]` after the sort. -/
def topCand (lh la : ℝ) : Cand := (rankedCands lh la).headI

/-- The low-edge fallback: the 1X2 leading outcome annotated with a note. -/
def fallback1X2 (lh la : ℝ) : Cand :=
  ⟨"1X2", (best1 lh la).1, (best1 lh la).2, (best1 lh la).2 - 1 / 3, 0.33,
    some "low-edge-fallback"⟩

/-- `chooseStrongest(lh, la)`: return the top candidate when its edge clears
`EDGE_MIN`, else the annotated 1X2 fallback. -/
def chooseStrongest (lh la : ℝ) : Cand :=
  if EDGE_MIN ≤ (topCand lh la).edge then topCand lh la else fallback1X2 lh la

/-! ### Expected-goals model (`expectedGoalsAdvanced`) -/

/-- `f => Math.max(0.85, Math.min(1.15, 0.98 + 0.10*f))`. -/
def fToFactor (f : ℝ) : ℝ := max 0.85 (min 1.15 (0.98 + 0.10 * f))

/-- Clamp a lambda to the plausible range `[0.15, 3.2]`. -/
def clampLam (x : ℝ) : ℝ := max 0.15 (min 3.2 x)

/-- `seedDiff = (seedOf(home) + HOME_ELO) - seedOf(away)` with `HOME_ELO = 65`. -/
def seedDiffOf (homeName awayName : String) : ℚ :=
  (seedOf homeName + 65) - seedOf awayName

/-- The guard of the one-sided-dominance tilt:
`seedOf(homeName) - seedOf(awayName) >= STRONG_DIFF_TILT`
(note: the raw seed difference, without the home-advantage bonus). -/
def strongTiltFires (homeName awayName : String) : Bool :=
  decide (STRONG_DIFF_TILT ≤ seedOf homeName - seedOf awayName)

/-- The pair `(lh, la)` right before the mismatch tilt and the final clamp. -/
def egPreTilt (homeName awayName leagueName : String)
    (homeForm awayForm : FormStats) : ℝ × ℝ :=
  let baseG : ℝ := ((leagueBaseGpm leagueName : ℚ) : ℝ)
  let seedDiff : ℝ := ((seedDiffOf homeName awayName : ℚ) : ℝ)
  let homeFormFac := fToFactor ((homeForm.formStrength : ℚ) : ℝ)
  let awayFormFac := fToFactor ((awayForm.formStrength : ℚ) : ℝ)
  let split0 := 0.5 + 0.12 * Real.tanh (seedDiff / 650)
  let relForm := homeFormFac / (awayFormFac + 1e-9)
  let split := max 0.36 (min 0.64 (split0 * relForm ^ (0.25 : ℝ)))
  (baseG * split * (1 + seedDiff / 2200) * homeFormFac,
   baseG * (1 - split) * (1 - seedDiff / 2200) * awayFormFac)

/-- The output record of `expectedGoalsAdvanced` (the `toFixed(3)`-rounded
debug fields of the source are omitted). -/
structure EgOut where
  lh : ℝ
  la : ℝ
  seedDiff : ℚ

/-- `expectedGoalsAdvanced(homeName, awayName, leagueName, homeForm, awayForm)`. -/
def expectedGoalsAdvanced (homeName awayName leagueName : String)
    (homeForm awayForm : FormStats) : EgOut :=
  let p := egPreTilt homeName awayName leagueName homeForm awayForm
  let lh := if strongTiltFires homeName awayName then p.1 * 1.10 else p.1
  let la := if strongTiltFires homeName awayName then p.2 * 0.90 else p.2
  ⟨clampLam lh, clampLam la, seedDiffOf homeName awayName⟩

end

/-! ### Rational-valued grid sums (specification-level, for exact values) -/

/-- The rational polynomial part of one `gridSum` bucket: `gridSum` at
rational lambdas equals `exp(-(a+b))` times this sum. -/
def gridSumQ (a b : ℚ) (cap : ℕ) (keep : ℕ → ℕ → Bool) : ℚ :=
  ∑ i ∈ Finset.range (cap + 1), ∑ j ∈ Finset.range (cap + 1),
    if keep i j then a ^ i * b ^ j / ((Nat.factorial i : ℚ) * (Nat.factorial j : ℚ)) else 0

/-- The win bucket at `lh = la = 5/4`, `cap = 12`. -/
def winQ : ℚ := gridSumQ (5/4) (5/4) 12 (fun i j => decide (j < i))

/-- The draw bucket at `lh = la = 5/4`, `cap = 12`. -/
def drawQ : ℚ := gridSumQ (5/4) (5/4) 12 (fun i j => decide (i = j))

/-- The loss bucket at `lh = la = 5/4`, `cap = 12`. -/
def lossQ : ℚ := gridSumQ (5/4) (5/4) 12 (fun i j => decide (i < j))

/-- A neutral form snapshot used for concrete instantiations. -/
def sampleForm : FormStats := ⟨0, 0, 0, 0, 0⟩

/-! ### Batch refresh (`fetchFixturesToday`) and the daily cache

The fixture attributes that the source derives from `Intl` time formatting
(`hourLocal`, the `kickoff` label) are carried as fixture data, and the
`try`/`catch`-wrapped upstream fetches of one fixture are an `Except`-valued
oracle argument. -/

/-- One fixture of the upstream `/v4/matches` response, after field
extraction. -/
structure Fixture where
  league : String
  kickoffIso : String
  kickoff : String
  hourLocal : ℕ
  homeName : String
  awayName : String
  homeId : Option ℕ
  awayId : Option ℕ

/-- One output row of the batch refresh. -/
structure Row where
  league : String
  kickoffIso : String
  kickoff : String
  hourLocal : ℕ
  home : String
  away : String
  prediction : String
  deriving DecidableEq

/-- What the `try` block fetches for one fixture: the standings pack and the
two recent-match lists. -/
def FetchedData : Type := StandingsPack × List MatchRec × List MatchRec

/-- The time-window filter (`hourLocal >= START_HOUR && hourLocal < END_HOUR`). -/
def hourFilter (f : Fixture) : Bool :=
  decide (START_HOUR ≤ f.hourLocal) && decide (f.hourLocal < END_HOUR)

noncomputable section

/-- The `out` value of one loop iteration: `null` when the `try` block threw,
otherwise the strongest-market selection for the fixture. -/
def outOf (f : Fixture) (fetched : Except Unit FetchedData) : Option Cand :=
  match fetched with
  | .error _ => none
  | .ok d =>
    let homeForm := formStatsAdvanced f.homeId d.2.1 d.1
    let awayForm := formStatsAdvanced f.awayId d.2.2 d.1
    let eg := expectedGoalsAdvanced f.homeName f.awayName f.league homeForm awayForm
    some (chooseStrongest eg.lh eg.la)

/-- One row of the strongest-market variant
(`prediction = out ? "<market>: <label> (<pct>%, +<edgePct> edge)" : "N/A"`). -/
def buildRow000 (f : Fixture) (fetched : Except Unit FetchedData) : Row :=
  let out := outOf f fetched
  let pct : ℤ := round (((out.map Cand.prob).getD 0) * 100)
  let edgePct : ℤ := round (max 0 (((out.map Cand.edge).getD 0) * 100))
  { league := f.league, kickoffIso := f.kickoffIso, kickoff := f.kickoff,
    hourLocal := f.hourLocal, home := f.homeName, away := f.awayName,
    prediction :=
      match out with
      | some o => o.market ++ ": " ++ o.label ++ " (" ++ toString pct ++ "%, +"
          ++ toString edgePct ++ " edge)"
      | none => "N/A" }

/-- The demo row appended when the row list is empty and `FALLBACK_DEMO` is
set. -/
def demoRow (date : String) : Row :=
  { league := "Demo League", kickoffIso := "", kickoff := date ++ " 19:00",
    hourLocal := 19, home := "Alpha FC", away := "Beta United",
    prediction := "1X2: 1 (64%, +31 edge)" }

/-- The row list built by `fetchFixturesToday`: filter fixtures by the local
hour window, build one row per fixture (each with its own fetch outcome),
sort by kickoff label, demo fallback when empty. -/
def fetchRows000 (fixtures : List Fixture)
    (oracle : Fixture → Except Unit FetchedData) (date : String) : List Row :=
  let rows := (fixtures.filter hourFilter).map (fun f => buildRow000 f (oracle f))
  let sorted := rows.mergeSort (fun a b => decide (a.kickoff ≤ b.kickoff))
  if sorted.isEmpty && FALLBACK_DEMO then [demoRow date] else sorted

/-- A pick of the 1X2-first `server.js` variant. -/
structure PickSrv where
  market : String
  label : String
  prob : ℝ

/-- The per-fixture neutral defaults of the `server.js` variant
(`let lh=1.3, la=1.2, pick={market:'1X2',label:'1',prob:0.45}`). -/
def defaultPickSrv : PickSrv := ⟨"1X2", "1", 0.45⟩

/-- Row construction of the `server.js` variant; its `try` block (fetch form
and standings, predict) is abstracted as an `Except`-valued attempt whose
failure keeps the neutral default pick. -/
def buildRowSrv (f : Fixture) (attempt : Except Unit PickSrv) : Row :=
  let pick : PickSrv := match attempt with
    | .ok p => p
    | .error _ => defaultPickSrv
  { league := f.league, kickoffIso := f.kickoffIso, kickoff := f.kickoff,
    hourLocal := f.hourLocal, home := f.homeName, away := f.awayName,
    prediction := pick.market ++ ": " ++ pick.label ++ " ("
      ++ toString ((round (pick.prob * 100) : ℤ)) ++ "%)" }

/-! ### Daily cache slot (`CACHE`, `warmCache`, `/api/today`) -/

/-- The single mutable cache slot. -/
structure CacheSlot where
  date : Option String
  rows : List Row
  savedAt : Option String
  error : Option String

/-- The payload of a successful `fetchFixturesToday` call (its `date` field
is the current local date; diagnostic fields are omitted). -/
structure FetchPayload where
  rows : List Row

/-- `warmCache()`: replace the slot wholesale.  Success stores the fetched
rows under the current date; a thrown error stores an empty slot under the
current date with the error message. -/
def warmSlot (nowDate : String) (ts : String)
    (outcome : Except String FetchPayload) : CacheSlot :=
  match outcome with
  | .ok p => { date := some nowDate, rows := p.rows, savedAt := some ts, error := none }
  | .error e => { date := some nowDate, rows := [], savedAt := some ts, error := some e }

/-- The `/api/today` handler: `if (CACHE.date !== nowDate) await warmCache()`,
then serve the slot.  The second component counts warm-cache refreshes
(each performing one upstream fixture fetch). -/
def handleToday (cache : CacheSlot) (nowDate : String) (fresh : CacheSlot) :
    CacheSlot × ℕ :=
  if cache.date = some nowDate then (cache, 0) else (fresh, 1)

/-- A concrete fixture for closed instantiations. -/
def sampleFixture : Fixture :=
  { league := "Demo League", kickoffIso := "2026-10-11T18:00:00Z",
    kickoff := "2026-10-11 21:00", hourLocal := 21,
    homeName := "Alpha FC", awayName := "Beta United",
    homeId := some 11, awayId := some 12 }

end

/-! ## Helper lemmas -/

theorem poisPmf_nonneg {lam : ℝ} (h : 0 ≤ lam) (k : ℕ) : 0 ≤ poisPmf lam k :=
  div_nonneg (mul_nonneg (Real.exp_nonneg _) (pow_nonneg h k)) (by positivity)

theorem poisPmf_zero_pos (lam : ℝ) : 0 < poisPmf lam 0 := by
  simp only [poisPmf, pow_zero, Nat.factorial_zero, Nat.cast_one, mul_one, div_one]
  exact Real.exp_pos _

theorem gridSum_nonneg {lh la : ℝ} (h1 : 0 ≤ lh) (h2 : 0 ≤ la) (cap : ℕ)
    (keep : ℕ → ℕ → Bool) : 0 ≤ gridSum lh la cap keep := by
  refine Finset.sum_nonneg fun i _ => Finset.sum_nonneg fun j _ => ?_
  by_cases hk : keep i j
  · simp only [hk, if_true]
    exact mul_nonneg (poisPmf_nonneg h1 i) (poisPmf_nonneg h2 j)
  · simp [hk]

/-- Any bucket dominates its `(0,0)` cell when that cell is kept. -/
theorem gridSum_ge_cell00 (lh la : ℝ) (cap : ℕ) (keep : ℕ → ℕ → Bool)
    (h1 : 0 ≤ lh) (h2 : 0 ≤ la) (hkeep : keep 0 0 = true) :
    poisPmf lh 0 * poisPmf la 0 ≤ gridSum lh la cap keep := by
  have hterm : ∀ i j, (0:ℝ) ≤ if keep i j then poisPmf lh i * poisPmf la j else 0 := by
    intro i j
    by_cases hk : keep i j = true
    · rw [if_pos hk]
      exact mul_nonneg (poisPmf_nonneg h1 i) (poisPmf_nonneg h2 j)
    · rw [if_neg hk]
  have hmem : (0:ℕ) ∈ Finset.range (cap + 1) := Finset.mem_range.mpr (Nat.succ_pos _)
  have hinner : poisPmf lh 0 * poisPmf la 0
      ≤ ∑ j ∈ Finset.range (cap + 1), if keep 0 j then poisPmf lh 0 * poisPmf la j else 0 := by
    have hs := Finset.single_le_sum
      (f := fun j => if keep 0 j then poisPmf lh 0 * poisPmf la j else 0)
      (fun j _ => hterm 0 j) hmem
    simpa [hkeep] using hs
  exact le_trans hinner (Finset.single_le_sum
    (f := fun i => ∑ j ∈ Finset.range (cap + 1), if keep i j then poisPmf lh i * poisPmf la j else 0)
    (fun i _ => Finset.sum_nonneg fun j _ => hterm i j) hmem)

/-- The diagonal bucket is positive (it contains the `(0,0)` cell). -/
theorem gridSum_diag_pos {lh la : ℝ} (h1 : 0 ≤ lh) (h2 : 0 ≤ la) (cap : ℕ) :
    0 < gridSum lh la cap (fun i j => decide (i = j)) :=
  lt_of_lt_of_le (mul_pos (poisPmf_zero_pos lh) (poisPmf_zero_pos la))
    (gridSum_ge_cell00 lh la cap _ h1 h2 (by decide))

/-- Monotone equivalence of `rpow` in the base, for a positive exponent. -/
theorem rpow_le_rpow_iff_base {x y tau : ℝ} (hx : 0 ≤ x) (hy : 0 ≤ y)
    (ht : 0 < tau) : x ≤ y ↔ x ^ tau ≤ y ^ tau := by
  constructor
  · intro h
    exact Real.rpow_le_rpow hx h ht.le
  · intro h
    by_contra hlt
    push_neg at hlt
    exact absurd h (not_le.mpr (Real.rpow_lt_rpow hy hlt ht))

/-- Specification of `mergeSort` with a real-valued key, descending:
the output is sorted, a permutation of the input, and (for nonempty input)
its head carries the maximal key. -/
theorem mergeSort_key_spec {α : Type} [Inhabited α] (key : α → ℝ) (l : List α) :
    (l.mergeSort (fun x y => decide (key y ≤ key x))).Pairwise
      (fun a b => key b ≤ key a) ∧
    (l.mergeSort (fun x y => decide (key y ≤ key x))).Perm l ∧
    (l ≠ [] →
      (l.mergeSort (fun x y => decide (key y ≤ key x))).headI ∈ l ∧
      ∀ x ∈ l, key x ≤ key (l.mergeSort (fun x y => decide (key y ≤ key x))).headI) := by
  have htrans : ∀ a b c : α, (fun x y => decide (key y ≤ key x)) a b = true →
      (fun x y => decide (key y ≤ key x)) b c = true →
      (fun x y => decide (key y ≤ key x)) a c = true := by
    intro a b c hab hbc
    simp only [decide_eq_true_eq] at *
    exact le_trans hbc hab
  have htotal : ∀ a b : α, ((fun x y => decide (key y ≤ key x)) a b
      || (fun x y => decide (key y ≤ key x)) b a) = true := by
    intro a b
    simp only [Bool.or_eq_true, decide_eq_true_eq]
    exact le_total _ _
  have hperm := List.mergeSort_perm l (fun x y => decide (key y ≤ key x))
  have hsorted := List.sorted_mergeSort htrans htotal l
  have hpair : (l.mergeSort (fun x y => decide (key y ≤ key x))).Pairwise
      (fun a b => key b ≤ key a) := by
    refine hsorted.imp ?_
    intro a b hab
    simpa using hab
  refine ⟨hpair, hperm, ?_⟩
  intro hne
  have hne2 : l.mergeSort (fun x y => decide (key y ≤ key x)) ≠ [] := by
    intro h0
    rw [h0] at hperm
    exact hne (hperm.symm.eq_nil)
  obtain ⟨h, t, hht⟩ : ∃ h t, l.mergeSort (fun x y => decide (key y ≤ key x)) = h :: t := by
    cases hcase : l.mergeSort (fun x y => decide (key y ≤ key x)) with
    | nil => exact absurd hcase hne2
    | cons h t => exact ⟨h, t, rfl⟩
  constructor
  · have hh : (l.mergeSort (fun x y => decide (key y ≤ key x))).headI
        ∈ l.mergeSort (fun x y => decide (key y ≤ key x)) := by
      rw [hht]
      exact List.mem_cons_self _ _
    exact hperm.mem_iff.mp hh
  · intro x hx
    have hx2 : x ∈ l.mergeSort (fun x y => decide (key y ≤ key x)) :=
      hperm.mem_iff.mpr hx
    rw [hht] at hx2 hpair ⊢
    simp only [List.headI]
    rcases List.mem_cons.mp hx2 with heq | hmem
    · subst heq
      exact le_refl _
    · exact List.rel_of_pairwise_cons hpair hmem

/-- On the diagonal `a = a`, the strict-lower bucket equals the
strict-upper bucket of the rational grid sum. -/
theorem gridSumQ_symm (a : ℚ) (cap : ℕ) :
    gridSumQ a a cap (fun i j => decide (j < i))
      = gridSumQ a a cap (fun i j => decide (i < j)) := by
  rw [gridSumQ, gridSumQ, Finset.sum_comm]
  refine Finset.sum_congr rfl fun i _ => Finset.sum_congr rfl fun j _ => ?_
  by_cases h : i < j
  · rw [if_pos (by simpa using h), if_pos (by simpa using h)]
    ring
  · rw [if_neg (by simpa using h), if_neg (by simpa using h)]

/-- At rational lambdas, every bucket of the real grid factors as
`exp(-(a+b))` times the rational grid sum. -/
theorem gridSum_rat (a b : ℚ) (cap : ℕ) (keep : ℕ → ℕ → Bool) :
    gridSum (a : ℝ) (b : ℝ) cap keep
      = Real.exp (-((a : ℝ) + (b : ℝ))) * ((gridSumQ a b cap keep : ℚ) : ℝ) := by
  rw [gridSum, gridSumQ, Rat.cast_sum, Finset.mul_sum]
  refine Finset.sum_congr rfl fun i _ => ?_
  rw [Rat.cast_sum, Finset.mul_sum]
  refine Finset.sum_congr rfl fun j _ => ?_
  by_cases hk : keep i j = true
  · rw [if_pos hk, if_pos hk, poisPmf, poisPmf]
    push_cast
    rw [neg_add, Real.exp_add]
    ring
  · rw [if_neg hk, if_neg hk, Rat.cast_zero, mul_zero]

/-- `probs1X2` at rational lambdas: the exponential factors cancel in the
normalisation, leaving ratios of the rational grid sums. -/
theorem probs1X2_rat (a b : ℚ) (cap : ℕ)
    (hS : gridSumQ a b cap (fun i j => decide (j < i))
        + gridSumQ a b cap (fun i j => decide (i = j))
        + gridSumQ a b cap (fun i j => decide (i < j)) ≠ 0) :
    (probs1X2 (a : ℝ) (b : ℝ) cap).pH
      = ((gridSumQ a b cap (fun i j => decide (j < i)) : ℚ) : ℝ)
        / ((gridSumQ a b cap (fun i j => decide (j < i))
          + gridSumQ a b cap (fun i j => decide (i = j))
          + gridSumQ a b cap (fun i j => decide (i < j)) : ℚ) : ℝ) ∧
    (probs1X2 (a : ℝ) (b : ℝ) cap).pD
      = ((gridSumQ a b cap (fun i j => decide (i = j)) : ℚ) : ℝ)
        / ((gridSumQ a b cap (fun i j => decide (j < i))
          + gridSumQ a b cap (fun i j => decide (i = j))
          + gridSumQ a b cap (fun i j => decide (i < j)) : ℚ) : ℝ) ∧
    (probs1X2 (a : ℝ) (b : ℝ) cap).pA
      = ((gridSumQ a b cap (fun i j => decide (i < j)) : ℚ) : ℝ)
        / ((gridSumQ a b cap (fun i j => decide (j < i))
          + gridSumQ a b cap (fun i j => decide (i = j))
          + gridSumQ a b cap (fun i j => decide (i < j)) : ℚ) : ℝ) := by
  have hW := gridSum_rat a b cap (fun i j => decide (j < i))
  have hD := gridSum_rat a b cap (fun i j => decide (i = j))
  have hL := gridSum_rat a b cap (fun i j => decide (i < j))
  have hEpos : (0 : ℝ) < Real.exp (-((a : ℝ) + (b : ℝ))) := Real.exp_pos _
  have hSr : ((gridSumQ a b cap (fun i j => decide (j < i))
      + gridSumQ a b cap (fun i j => decide (i = j))
      + gridSumQ a b cap (fun i j => decide (i < j)) : ℚ) : ℝ) ≠ 0 := by
    exact_mod_cast hS
  have hsum : gridSum (a : ℝ) (b : ℝ) cap (fun i j => decide (j < i))
      + gridSum (a : ℝ) (b : ℝ) cap (fun i j => decide (i = j))
      + gridSum (a : ℝ) (b : ℝ) cap (fun i j => decide (i < j))
      = Real.exp (-((a : ℝ) + (b : ℝ)))
        * ((gridSumQ a b cap (fun i j => decide (j < i))
          + gridSumQ a b cap (fun i j => decide (i = j))
          + gridSumQ a b cap (fun i j => decide (i < j)) : ℚ) : ℝ) := by
    rw [hW, hD, hL]
    push_cast
    ring
  have hs0 : gridSum (a : ℝ) (b : ℝ) cap (fun i j => decide (j < i))
      + gridSum (a : ℝ) (b : ℝ) cap (fun i j => decide (i = j))
      + gridSum (a : ℝ) (b : ℝ) cap (fun i j => decide (i < j)) ≠ 0 := by
    rw [hsum]
    exact mul_ne_zero (ne_of_gt hEpos) hSr
  refine ⟨?_, ?_, ?_⟩
  · simp only [probs1X2]
    rw [if_neg hs0, hsum, hW, mul_div_mul_left _ _ (ne_of_gt hEpos)]
  · simp only [probs1X2]
    rw [if_neg hs0, hsum, hD, mul_div_mul_left _ _ (ne_of_gt hEpos)]
  · simp only [probs1X2]
    rw [if_neg hs0, hsum, hL, mul_div_mul_left _ _ (ne_of_gt hEpos)]

set_option maxRecDepth 10000 in
/-- Exact value of the strict-lower (home-win) bucket at `lh = la = 5/4`. -/
theorem winQ_val :
    winQ = 9571806342068090240421066665 / 2152744385901150044329869312 := by
  norm_num [winQ, gridSumQ, Finset.sum_range_succ, Nat.factorial]

set_option maxRecDepth 10000 in
/-- Exact value of the diagonal (draw) bucket at `lh = la = 5/4`. -/
theorem drawQ_val :
    drawQ = 339944771897843865391546206001 / 103331730523255202127833726976 := by
  norm_num [drawQ, gridSumQ, Finset.sum_range_succ, Nat.factorial]

/-- The strict-upper bucket coincides with the strict-lower bucket at equal
lambdas. -/
theorem lossQ_eq_winQ : lossQ = winQ := (gridSumQ_symm (5/4) 12).symm

theorem winQ_pos : 0 < winQ := by rw [winQ_val]; norm_num

theorem drawQ_pos : 0 < drawQ := by rw [drawQ_val]; norm_num

theorem drawQ_le_winQ : drawQ ≤ winQ := by rw [winQ_val, drawQ_val]; norm_num

/-- Lower bound on the draw/win ratio at `lh = la = 5/4`. -/
theorem draw_win_ratio_lb : (7399 : ℚ) / 10000 ≤ drawQ / winQ := by
  rw [winQ_val, drawQ_val]
  norm_num

/-- Fourth-power lower bound for the quartic root of the draw/win ratio. -/
theorem draw_win_ratio_quartic : ((92 : ℚ) / 100) ^ 4 ≤ drawQ / winQ := by
  rw [winQ_val, drawQ_val]
  norm_num

/-- `exp 5` to six decimal places, from the nine-decimal bounds on `e`. -/
theorem exp_five_bounds :
    (148.413159 : ℝ) < Real.exp 5 ∧ Real.exp 5 < 148.4131592 := by
  have h5 : Real.exp 5 = Real.exp 1 ^ (5 : ℕ) := by
    rw [← Real.exp_nat_mul]
    norm_num
  constructor
  · rw [h5]
    have h1 := Real.exp_one_gt_d9
    have hp : (2.7182818283 : ℝ) ^ (5 : ℕ) < Real.exp 1 ^ (5 : ℕ) :=
      pow_lt_pow_left₀ h1 (by norm_num) (by norm_num)
    have hn : (148.413159 : ℝ) < 2.7182818283 ^ (5 : ℕ) := by norm_num
    linarith
  · rw [h5]
    have h1 := Real.exp_one_lt_d9
    have hp : Real.exp 1 ^ (5 : ℕ) < (2.7182818286 : ℝ) ^ (5 : ℕ) :=
      pow_lt_pow_left₀ h1 (Real.exp_pos 1).le (by norm_num)
    have hn : (2.7182818286 : ℝ) ^ (5 : ℕ) < 148.4131592 := by norm_num
    linarith

/-- `exp (5/2)` bounds via its square. -/
theorem exp_half5_bounds :
    (12.18249 : ℝ) < Real.exp (5/2) ∧ Real.exp (5/2) < 12.1825 := by
  obtain ⟨hlo, hhi⟩ := exp_five_bounds
  have hsq : Real.exp (5/2) ^ (2 : ℕ) = Real.exp 5 := by
    rw [← Real.exp_nat_mul]
    norm_num
  have hpos := Real.exp_pos (5/2 : ℝ)
  constructor
  · refine lt_of_pow_lt_pow_left₀ 2 hpos.le ?_
    rw [hsq]
    have hn : (12.18249 : ℝ) ^ (2 : ℕ) < 148.413159 := by norm_num
    linarith
  · refine lt_of_pow_lt_pow_left₀ 2 (by norm_num) ?_
    rw [hsq]
    have hn : (148.4131592 : ℝ) < (12.1825 : ℝ) ^ (2 : ℕ) := by norm_num
    linarith

/-- `exp (5/4)` bounds via its fourth power. -/
theorem exp_quarter5_bounds :
    (3.49034 : ℝ) < Real.exp (5/4) ∧ Real.exp (5/4) < 3.49035 := by
  obtain ⟨hlo, hhi⟩ := exp_five_bounds
  have hsq : Real.exp (5/4) ^ (4 : ℕ) = Real.exp 5 := by
    rw [← Real.exp_nat_mul]
    norm_num
  have hpos := Real.exp_pos (5/4 : ℝ)
  constructor
  · refine lt_of_pow_lt_pow_left₀ 4 hpos.le ?_
    rw [hsq]
    have hn : (3.49034 : ℝ) ^ (4 : ℕ) < 148.413159 := by norm_num
    linarith
  · refine lt_of_pow_lt_pow_left₀ 4 (by norm_num) ?_
    rw [hsq]
    have hn : (148.4131592 : ℝ) < (3.49035 : ℝ) ^ (4 : ℕ) := by norm_num
    linarith

theorem lookup_mem {α β : Type} [BEq α] [LawfulBEq α] {l : List (α × β)} {k : α} {v : β}
    (h : l.lookup k = some v) : (k, v) ∈ l := by
  induction l with
  | nil => simp [List.lookup] at h
  | cons a l ih =>
    obtain ⟨k1, v1⟩ := a
    simp only [List.lookup] at h
    by_cases hk : k == k1
    · rw [hk] at h
      simp only at h
      obtain rfl : v1 = v := by simpa using h
      obtain rfl : k = k1 := by simpa using hk
      exact List.mem_cons_self _ _
    · rw [Bool.not_eq_true] at hk
      rw [hk] at h
      simp only at h
      exact List.mem_cons_of_mem _ (ih h)

/-- Every alias target has an entry in the seed table. -/
theorem alias_targets_seeded : ∀ p ∈ ALIAS, (SEED_ELO.lookup p.2).isSome = true := by decide

/-- Component-wise description of the `forEach` fold of the form aggregator:
the points / goals-for / goals-against accumulators are plain sums. -/
theorem formStep_foldl_sums (teamId : Option ℕ) (pack : StandingsPack) :
    ∀ (l : List (ℕ × MatchRec)) (a : FormAcc),
      (l.foldl (formStep teamId pack) a).pts
        = a.pts + (l.map (fun im => matchPoints (forGoalsOf teamId im.2) (agGoalsOf teamId im.2))).sum ∧
      (l.foldl (formStep teamId pack) a).gf
        = a.gf + (l.map (fun im => forGoalsOf teamId im.2)).sum ∧
      (l.foldl (formStep teamId pack) a).ga
        = a.ga + (l.map (fun im => agGoalsOf teamId im.2)).sum := by
  intro l
  induction l with
  | nil => intro a; simp
  | cons x xs ih =>
    intro a
    simp only [List.foldl_cons, List.map_cons, List.sum_cons]
    obtain ⟨h1, h2, h3⟩ := ih (formStep teamId pack a x)
    refine ⟨?_, ?_, ?_⟩
    · rw [h1]; simp only [formStep]; ring
    · rw [h2]; simp only [formStep]; ring
    · rw [h3]; simp only [formStep]; ring

theorem enum_map_snd_sum (ms : List MatchRec) (f : ℕ × MatchRec → ℚ)
    (g : MatchRec → ℚ) (hfg : ∀ i m, f (i, m) = g m) :
    (ms.enum.map f).sum = (ms.map g).sum := by
  have hmaps : ms.enum.map f = ms.enum.map (g ∘ Prod.snd) := by
    apply List.map_congr_left
    intro x _
    obtain ⟨i, m⟩ := x
    exact hfg i m
  rw [hmaps, ← List.map_map, List.enum_map_snd]

/-! ## Claims C4, C5, C6 -/

/-- C4: the rating lookup is total over all strings: the name is normalised
and alias-resolved to a canonical key, and whenever that canonical key is
absent from the rating table the lookup returns exactly 1500. -/
theorem C4_rating_default (s : String)
    (h : SEED_ELO.lookup (canonicalKey s) = none) : seedOf s = 1500 := by
  cases hA : ALIAS.lookup (normTeam s) with
  | none =>
    have hk : canonicalKey s = normTeam s := by rw [canonicalKey, hA]
    rw [seedOf, h, ← hk, h]
  | some t =>
    have hk : canonicalKey s = t := by rw [canonicalKey, hA]
    have hmem := alias_targets_seeded _ (lookup_mem hA)
    rw [hk] at h
    rw [h] at hmem
    simp at hmem

theorem C4_witness :
    SEED_ELO.lookup (canonicalKey "Alpha FC") = none ∧ seedOf "Alpha FC" = 1500 :=
  ⟨by decide, C4_rating_default "Alpha FC" (by decide)⟩

/-- C5: for every list of at most 5 recent matches, points-per-match and
goals-for/against-per-match are the corresponding sums divided by the actual
number of matches present, and for the empty list the divisor is 1. -/
theorem C5_form_averages (teamId : Option ℕ) (ms : List MatchRec)
    (pack : StandingsPack) (hlen : ms.length ≤ 5) :
    (ms ≠ [] →
      (formStatsAdvanced teamId ms pack).ppm = ptsTotal teamId ms / (ms.length : ℚ) ∧
      (formStatsAdvanced teamId ms pack).gfpm = goalsForTotal teamId ms / (ms.length : ℚ) ∧
      (formStatsAdvanced teamId ms pack).gapm = goalsAgainstTotal teamId ms / (ms.length : ℚ)) ∧
    (ms = [] →
      (formStatsAdvanced teamId ms pack).ppm = ptsTotal teamId ms / 1 ∧
      (formStatsAdvanced teamId ms pack).gfpm = goalsForTotal teamId ms / 1 ∧
      (formStatsAdvanced teamId ms pack).gapm = goalsAgainstTotal teamId ms / 1) := by
  obtain ⟨h1, h2, h3⟩ := formStep_foldl_sums teamId pack ms.enum ⟨0, 0, 0, 0, 0, 0⟩
  constructor
  · intro hne
    have hlen0 : ms.length ≠ 0 := fun h0 => hne (List.length_eq_zero.mp h0)
    rw [enum_map_snd_sum ms _ (fun m => matchPoints (forGoalsOf teamId m) (agGoalsOf teamId m))
      (fun i m => rfl)] at h1
    rw [enum_map_snd_sum ms _ (fun m => forGoalsOf teamId m) (fun i m => rfl)] at h2
    rw [enum_map_snd_sum ms _ (fun m => agGoalsOf teamId m) (fun i m => rfl)] at h3
    refine ⟨?_, ?_, ?_⟩ <;>
      simp only [formStatsAdvanced, if_neg hlen0, h1, h2, h3,
        ptsTotal, goalsForTotal, goalsAgainstTotal, zero_add]
  · intro hnil
    subst hnil
    refine ⟨?_, ?_, ?_⟩ <;>
      simp [formStatsAdvanced, ptsTotal, goalsForTotal, goalsAgainstTotal]

theorem C5_witness :
    (([sampleMatch1, sampleMatch2] : List MatchRec) ≠ [] →
      (formStatsAdvanced (some 1) [sampleMatch1, sampleMatch2] samplePack).ppm
        = ptsTotal (some 1) [sampleMatch1, sampleMatch2]
          / (([sampleMatch1, sampleMatch2] : List MatchRec).length : ℚ) ∧
      (formStatsAdvanced (some 1) [sampleMatch1, sampleMatch2] samplePack).gfpm
        = goalsForTotal (some 1) [sampleMatch1, sampleMatch2]
          / (([sampleMatch1, sampleMatch2] : List MatchRec).length : ℚ) ∧
      (formStatsAdvanced (some 1) [sampleMatch1, sampleMatch2] samplePack).gapm
        = goalsAgainstTotal (some 1) [sampleMatch1, sampleMatch2]
          / (([sampleMatch1, sampleMatch2] : List MatchRec).length : ℚ)) ∧
    (([sampleMatch1, sampleMatch2] : List MatchRec) = [] →
      (formStatsAdvanced (some 1) [sampleMatch1, sampleMatch2] samplePack).ppm
        = ptsTotal (some 1) [sampleMatch1, sampleMatch2] / 1 ∧
      (formStatsAdvanced (some 1) [sampleMatch1, sampleMatch2] samplePack).gfpm
        = goalsForTotal (some 1) [sampleMatch1, sampleMatch2] / 1 ∧
      (formStatsAdvanced (some 1) [sampleMatch1, sampleMatch2] samplePack).gapm
        = goalsAgainstTotal (some 1) [sampleMatch1, sampleMatch2] / 1) :=
  C5_form_averages (some 1) [sampleMatch1, sampleMatch2] samplePack (by decide)

/-- C6: a match whose opponent has no entry in the standings map contributes
the midpoint position `ceil(size/2)` to the opponent-strength computation. -/
theorem C6_missing_opponent_midpoint (teamId : Option ℕ) (m : MatchRec)
    (pack : StandingsPack) (o : ℕ) (ho : oppIdOf teamId m = some o)
    (hmap : pack.map.lookup o = none) (hs : pack.size ≠ 0) :
    oppPosOf teamId m pack = ceilHalf pack.size ∧
    (formStatsAdvanced teamId [m] pack).oppAvgPos = (ceilHalf pack.size : ℚ) := by
  have hes : effSize pack = pack.size := by rw [effSize, if_neg hs]
  have h1 : oppPosOf teamId m pack = ceilHalf pack.size := by
    simp only [oppPosOf, ho, hmap, hes]
  refine ⟨h1, ?_⟩
  simp only [formStatsAdvanced, List.enum, List.enumFrom, List.foldl_cons, List.foldl_nil,
    formStep, List.length_cons, List.length_nil]
  norm_num [h1]

theorem C6_witness :
    oppPosOf (some 1) sampleMatchMissing samplePack = ceilHalf samplePack.size ∧
    (formStatsAdvanced (some 1) [sampleMatchMissing] samplePack).oppAvgPos
      = (ceilHalf samplePack.size : ℚ) :=
  C6_missing_opponent_midpoint (some 1) sampleMatchMissing samplePack 99
    (by decide) (by decide) (by decide)

/-! ## Claims C3, C7, C10 -/

/-- C3: for every pair of non-negative expected-goal values the three 1X2
probabilities of the truncated-Poisson grid computation lie in `[0,1]` and
sum exactly to 1 after normalisation. -/
theorem C3_probs1X2_normalized (lh la : ℝ) (cap : ℕ) (h1 : 0 ≤ lh) (h2 : 0 ≤ la) :
    (0 ≤ (probs1X2 lh la cap).pH ∧ (probs1X2 lh la cap).pH ≤ 1) ∧
    (0 ≤ (probs1X2 lh la cap).pD ∧ (probs1X2 lh la cap).pD ≤ 1) ∧
    (0 ≤ (probs1X2 lh la cap).pA ∧ (probs1X2 lh la cap).pA ≤ 1) ∧
    (probs1X2 lh la cap).pH + (probs1X2 lh la cap).pD + (probs1X2 lh la cap).pA = 1 := by
  have hW := gridSum_nonneg h1 h2 cap (fun i j => decide (j < i))
  have hD := gridSum_diag_pos h1 h2 cap
  have hA := gridSum_nonneg h1 h2 cap (fun i j => decide (i < j))
  set W := gridSum lh la cap (fun i j => decide (j < i)) with hWdef
  set D := gridSum lh la cap (fun i j => decide (i = j)) with hDdef
  set A := gridSum lh la cap (fun i j => decide (i < j)) with hAdef
  have hs : 0 < W + D + A := by linarith
  have hifs : (if W + D + A = 0 then (1:ℝ) else W + D + A) = W + D + A :=
    if_neg (ne_of_gt hs)
  simp only [probs1X2, ← hWdef, ← hDdef, ← hAdef, hifs]
  refine ⟨⟨?_, ?_⟩, ⟨?_, ?_⟩, ⟨?_, ?_⟩, ?_⟩
  · exact div_nonneg hW hs.le
  · rw [div_le_one hs]; linarith
  · exact div_nonneg hD.le hs.le
  · rw [div_le_one hs]; linarith
  · exact div_nonneg hA hs.le
  · rw [div_le_one hs]; linarith
  · rw [div_add_div_same, div_add_div_same, div_self (ne_of_gt hs)]

theorem C3_witness :
    (0 ≤ (probs1X2 0 0 12).pH ∧ (probs1X2 0 0 12).pH ≤ 1) ∧
    (0 ≤ (probs1X2 0 0 12).pD ∧ (probs1X2 0 0 12).pD ≤ 1) ∧
    (0 ≤ (probs1X2 0 0 12).pA ∧ (probs1X2 0 0 12).pA ≤ 1) ∧
    (probs1X2 0 0 12).pH + (probs1X2 0 0 12).pD + (probs1X2 0 0 12).pA = 1 :=
  C3_probs1X2_normalized 0 0 12 le_rfl le_rfl

/-- C7: both expected-goal values returned by `expectedGoalsAdvanced` lie in
the clamp range `[0.15, 3.2]`, for all inputs. -/
theorem C7_lambda_range (homeName awayName leagueName : String)
    (homeForm awayForm : FormStats) :
    0.15 ≤ (expectedGoalsAdvanced homeName awayName leagueName homeForm awayForm).lh ∧
    (expectedGoalsAdvanced homeName awayName leagueName homeForm awayForm).lh ≤ 3.2 ∧
    0.15 ≤ (expectedGoalsAdvanced homeName awayName leagueName homeForm awayForm).la ∧
    (expectedGoalsAdvanced homeName awayName leagueName homeForm awayForm).la ≤ 3.2 := by
  have hcl : ∀ x : ℝ, 0.15 ≤ clampLam x ∧ clampLam x ≤ 3.2 := fun x =>
    ⟨le_max_left _ _, max_le (by norm_num) (min_le_left _ _)⟩
  simp only [expectedGoalsAdvanced]
  exact ⟨(hcl _).1, (hcl _).2, (hcl _).1, (hcl _).2⟩

/-- C10: sharpening a probability triple that sums to 1 with a positive
exponent returns a triple that sums to 1 and preserves the relative order of
the three probabilities (hence the leading outcome). -/
theorem C10_sharpen_preserves (pH pD pA tau : ℝ) (hH : 0 ≤ pH) (hD : 0 ≤ pD)
    (hA : 0 ≤ pA) (hsum : pH + pD + pA = 1) (htau : 0 < tau) :
    (sharpen3 pH pD pA tau).pH + (sharpen3 pH pD pA tau).pD
      + (sharpen3 pH pD pA tau).pA = 1 ∧
    (pH ≤ pD ↔ (sharpen3 pH pD pA tau).pH ≤ (sharpen3 pH pD pA tau).pD) ∧
    (pH ≤ pA ↔ (sharpen3 pH pD pA tau).pH ≤ (sharpen3 pH pD pA tau).pA) ∧
    (pD ≤ pA ↔ (sharpen3 pH pD pA tau).pD ≤ (sharpen3 pH pD pA tau).pA) := by
  have hpos : 0 < pH ∨ 0 < pD ∨ 0 < pA := by
    by_contra hcon
    push_neg at hcon
    obtain ⟨k1, k2, k3⟩ := hcon
    have : pH = 0 := le_antisymm k1 hH
    have : pD = 0 := le_antisymm k2 hD
    have : pA = 0 := le_antisymm k3 hA
    simp_all
  have haH := Real.rpow_nonneg hH tau
  have haD := Real.rpow_nonneg hD tau
  have haA := Real.rpow_nonneg hA tau
  have hZ : 0 < pH ^ tau + pD ^ tau + pA ^ tau := by
    rcases hpos with h | h | h
    · have := Real.rpow_pos_of_pos h tau; linarith
    · have := Real.rpow_pos_of_pos h tau; linarith
    · have := Real.rpow_pos_of_pos h tau; linarith
  have hifs : (if pH ^ tau + pD ^ tau + pA ^ tau = 0 then (1:ℝ)
      else pH ^ tau + pD ^ tau + pA ^ tau) = pH ^ tau + pD ^ tau + pA ^ tau :=
    if_neg (ne_of_gt hZ)
  simp only [sharpen3, hifs]
  refine ⟨?_, ?_, ?_, ?_⟩
  · rw [div_add_div_same, div_add_div_same, div_self (ne_of_gt hZ)]
  · rw [div_le_div_iff_of_pos_right hZ]
    exact rpow_le_rpow_iff_base hH hD htau
  · rw [div_le_div_iff_of_pos_right hZ]
    exact rpow_le_rpow_iff_base hH hA htau
  · rw [div_le_div_iff_of_pos_right hZ]
    exact rpow_le_rpow_iff_base hD hA htau

theorem C10_witness :
    (sharpen3 (1/2) (1/3) (1/6) 1).pH + (sharpen3 (1/2) (1/3) (1/6) 1).pD
      + (sharpen3 (1/2) (1/3) (1/6) 1).pA = 1 ∧
    ((1:ℝ)/2 ≤ 1/3 ↔ (sharpen3 (1/2) (1/3) (1/6) 1).pH ≤ (sharpen3 (1/2) (1/3) (1/6) 1).pD) ∧
    ((1:ℝ)/2 ≤ 1/6 ↔ (sharpen3 (1/2) (1/3) (1/6) 1).pH ≤ (sharpen3 (1/2) (1/3) (1/6) 1).pA) ∧
    ((1:ℝ)/3 ≤ 1/6 ↔ (sharpen3 (1/2) (1/3) (1/6) 1).pD ≤ (sharpen3 (1/2) (1/3) (1/6) 1).pA) :=
  C10_sharpen_preserves (1/2) (1/3) (1/6) 1 (by norm_num) (by norm_num)
    (by norm_num) (by norm_num) (by norm_num)

/-! ## Claim C2 -/

/-- C2 (amended): the one-sided-dominance tilt fires exactly when the raw
seed difference `seedOf(home) - seedOf(away)` (without the home-advantage
bonus) is at least `STRONG_DIFF_TILT`; when it fires the outputs are the
clamped tilted pre-tilt lambdas, otherwise the clamped pre-tilt lambdas. -/
theorem C2_tilt_guard (homeName awayName leagueName : String)
    (homeForm awayForm : FormStats) :
    (strongTiltFires homeName awayName = true ↔
      STRONG_DIFF_TILT ≤ seedOf homeName - seedOf awayName) ∧
    (strongTiltFires homeName awayName = true →
      expectedGoalsAdvanced homeName awayName leagueName homeForm awayForm =
        ⟨clampLam ((egPreTilt homeName awayName leagueName homeForm awayForm).1 * 1.10),
         clampLam ((egPreTilt homeName awayName leagueName homeForm awayForm).2 * 0.90),
         seedDiffOf homeName awayName⟩) ∧
    (strongTiltFires homeName awayName = false →
      expectedGoalsAdvanced homeName awayName leagueName homeForm awayForm =
        ⟨clampLam (egPreTilt homeName awayName leagueName homeForm awayForm).1,
         clampLam (egPreTilt homeName awayName leagueName homeForm awayForm).2,
         seedDiffOf homeName awayName⟩) := by
  refine ⟨by simp [strongTiltFires], ?_, ?_⟩ <;>
    intro h <;> simp [expectedGoalsAdvanced, h]

theorem C2_witness :
    strongTiltFires "Manchester City" "Nantes" = true ∧
    expectedGoalsAdvanced "Manchester City" "Nantes" "" sampleForm sampleForm =
      ⟨clampLam ((egPreTilt "Manchester City" "Nantes" "" sampleForm sampleForm).1 * 1.10),
       clampLam ((egPreTilt "Manchester City" "Nantes" "" sampleForm sampleForm).2 * 0.90),
       seedDiffOf "Manchester City" "Nantes"⟩ := by
  have e1 : seedOf "Manchester City" = 1880 := by decide
  have e2 : seedOf "Nantes" = 1600 := by decide
  have hf : strongTiltFires "Manchester City" "Nantes" = true := by
    rw [strongTiltFires, e1, e2, decide_eq_true_eq, STRONG_DIFF_TILT]
    norm_num
  exact ⟨hf, (C2_tilt_guard "Manchester City" "Nantes" "" sampleForm sampleForm).2.1 hf⟩

/-- C2 counterexample: for Bayern Munich vs AS Roma the claim's differential
`(home rating + home bonus) - away rating = 225` exceeds the threshold 220,
yet the source tilt guard (which omits the bonus, `1900 - 1740 = 160 < 220`)
does not fire and the output is the untilted pair. -/
theorem C2_counterexample :
    STRONG_DIFF_TILT < seedDiffOf "Bayern Munich" "AS Roma" ∧
    strongTiltFires "Bayern Munich" "AS Roma" = false ∧
    expectedGoalsAdvanced "Bayern Munich" "AS Roma" "" sampleForm sampleForm =
      ⟨clampLam (egPreTilt "Bayern Munich" "AS Roma" "" sampleForm sampleForm).1,
       clampLam (egPreTilt "Bayern Munich" "AS Roma" "" sampleForm sampleForm).2,
       seedDiffOf "Bayern Munich" "AS Roma"⟩ := by
  have e1 : seedOf "Bayern Munich" = 1900 := by decide
  have e2 : seedOf "AS Roma" = 1740 := by decide
  have hf : strongTiltFires "Bayern Munich" "AS Roma" = false := by
    rw [strongTiltFires, e1, e2, decide_eq_false_iff_not, STRONG_DIFF_TILT]
    norm_num
  refine ⟨?_, hf, ?_⟩
  · rw [STRONG_DIFF_TILT, seedDiffOf, e1, e2]
    norm_num
  · simp [expectedGoalsAdvanced, hf]

/-! ## Claim C8 -/

/-- C8 (amended): a per-fixture failure does not abort the batch — the rows
are exactly one row per hour-filtered fixture (reordered only by the kickoff
sort), the affected fixture's row is still emitted, and all other fixtures
are processed normally.  In the strongest-market variant the affected row
carries the prediction `"N/A"` (no pick); in the 1X2-first `server.js`
variant it carries the neutral default pick `1X2: 1 (45%)`. -/
theorem C8_batch_isolation (fixtures : List Fixture)
    (oracle : Fixture → Except Unit FetchedData) (date : String) :
    (fetchRows000 fixtures oracle date).Perm
      ((fixtures.filter hourFilter).map (fun f => buildRow000 f (oracle f))) ∧
    (fetchRows000 fixtures oracle date).length
      = (fixtures.filter hourFilter).length ∧
    (∀ f ∈ fixtures.filter hourFilter, ∀ e, oracle f = Except.error e →
      (buildRow000 f (oracle f)).prediction = "N/A" ∧
      buildRow000 f (oracle f) ∈ fetchRows000 fixtures oracle date) ∧
    (∀ (f : Fixture) (e : Unit),
      (buildRowSrv f (Except.error e)).prediction = "1X2: 1 (45%)") := by
  have hbranch : fetchRows000 fixtures oracle date
      = ((fixtures.filter hourFilter).map
          (fun f => buildRow000 f (oracle f))).mergeSort
            (fun a b => decide (a.kickoff ≤ b.kickoff)) := by
    simp [fetchRows000, FALLBACK_DEMO]
  have hperm : (fetchRows000 fixtures oracle date).Perm
      ((fixtures.filter hourFilter).map (fun f => buildRow000 f (oracle f))) := by
    rw [hbranch]
    exact List.mergeSort_perm _ _
  refine ⟨hperm, ?_, ?_, ?_⟩
  · rw [hperm.length_eq, List.length_map]
  · intro f hf e he
    constructor
    · rw [he]
      rfl
    · rw [hperm.mem_iff]
      exact List.mem_map_of_mem _ hf
  · intro f e
    show "1X2" ++ ": " ++ "1" ++ " ("
        ++ toString ((round ((0.45:ℝ) * 100) : ℤ)) ++ "%)" = "1X2: 1 (45%)"
    have h45 : (round ((0.45:ℝ) * 100) : ℤ) = 45 := by norm_num
    rw [h45]
    rfl

theorem C8_witness :
    (fetchRows000 [sampleFixture]
      (fun _ => (Except.error () : Except Unit FetchedData)) "2026-10-11").Perm
      ((([sampleFixture] : List Fixture).filter hourFilter).map
        (fun f => buildRow000 f (Except.error ()))) ∧
    (fetchRows000 [sampleFixture]
      (fun _ => (Except.error () : Except Unit FetchedData)) "2026-10-11").length
      = (([sampleFixture] : List Fixture).filter hourFilter).length ∧
    (∀ f ∈ ([sampleFixture] : List Fixture).filter hourFilter, ∀ e : Unit,
      (Except.error () : Except Unit FetchedData) = Except.error e →
      (buildRow000 f (Except.error ())).prediction = "N/A" ∧
      buildRow000 f (Except.error ())
        ∈ fetchRows000 [sampleFixture]
            (fun _ => (Except.error () : Except Unit FetchedData)) "2026-10-11") ∧
    (∀ (f : Fixture) (e : Unit),
      (buildRowSrv f (Except.error e)).prediction = "1X2: 1 (45%)") :=
  C8_batch_isolation [sampleFixture]
    (fun _ => (Except.error () : Except Unit FetchedData)) "2026-10-11"

/-- C8 counterexample: in the strongest-market variant a fixture whose
upstream fetch throws is emitted with `out = null` and prediction `"N/A"` —
no pick at all — not with a neutral default pick of moderate probability. -/
theorem C8_counterexample :
    outOf sampleFixture (Except.error ()) = none ∧
    (buildRow000 sampleFixture (Except.error ())).prediction = "N/A" ∧
    (buildRow000 sampleFixture (Except.error ())).prediction ≠ "1X2: 1 (45%)" := by
  refine ⟨rfl, rfl, ?_⟩
  intro h
  have : "N/A" = "1X2: 1 (45%)" := h
  simp at this

/-! ## Claim C9 -/

/-- C9: a request that observes the cached date equal to the current local
date performs no upstream fetch and leaves the cache unchanged; a request
that observes a different cached date performs exactly one refresh, which
replaces the slot wholesale (independently of the old slot), after which a
same-day request performs no further fetch. -/
theorem C9_cache_daily (cache : CacheSlot) (nowDate : String) (ts1 ts2 : String)
    (o1 o2 : Except String FetchPayload) :
    (cache.date = some nowDate →
      handleToday cache nowDate (warmSlot nowDate ts1 o1) = (cache, 0)) ∧
    (cache.date ≠ some nowDate →
      handleToday cache nowDate (warmSlot nowDate ts1 o1)
        = (warmSlot nowDate ts1 o1, 1) ∧
      (handleToday (warmSlot nowDate ts1 o1) nowDate
        (warmSlot nowDate ts2 o2)).2 = 0) := by
  constructor
  · intro h
    simp [handleToday, h]
  · intro h
    refine ⟨by simp [handleToday, h], ?_⟩
    have hdate : (warmSlot nowDate ts1 o1).date = some nowDate := by
      cases o1 <;> rfl
    simp [handleToday, hdate]

theorem C9_witness :
    (handleToday ⟨some "2026-10-11", [], none, none⟩ "2026-10-11"
        (warmSlot "2026-10-11" "t0" (Except.ok ⟨[]⟩))
      = (⟨some "2026-10-11", [], none, none⟩, 0)) ∧
    (handleToday ⟨some "2026-10-10", [], none, none⟩ "2026-10-11"
        (warmSlot "2026-10-11" "t1" (Except.error "boom"))
      = (warmSlot "2026-10-11" "t1" (Except.error "boom"), 1)) ∧
    ((handleToday (warmSlot "2026-10-11" "t1" (Except.error "boom")) "2026-10-11"
        (warmSlot "2026-10-11" "t2" (Except.ok ⟨[]⟩))).2 = 0) :=
  ⟨(C9_cache_daily ⟨some "2026-10-11", [], none, none⟩ "2026-10-11" "t0" "t0"
      (Except.ok ⟨[]⟩) (Except.ok ⟨[]⟩)).1 rfl,
   ((C9_cache_daily ⟨some "2026-10-10", [], none, none⟩ "2026-10-11" "t1" "t2"
      (Except.error "boom") (Except.ok ⟨[]⟩)).2 (by decide)).1,
   ((C9_cache_daily ⟨some "2026-10-10", [], none, none⟩ "2026-10-11" "t1" "t2"
      (Except.error "boom") (Except.ok ⟨[]⟩)).2 (by decide)).2⟩

/-! ## Claim C1: helper facts at the concrete input `lh = la = 5/4` -/

/-- Sharpening a symmetric triple `(P, Q, P)` with the default exponent:
the home and away outputs agree, the draw output is not larger, and the home
output is bounded using a lower bound on the ratio `Q/P`. -/
theorem sharpen3_sym_bound (P Q : ℝ) (hP : 0 < P) (hQ : 0 < Q) (hQP : Q ≤ P)
    (h1 : (7399/10000 : ℝ) ≤ Q / P)
    (h4 : ((92 : ℝ)/100) ^ (4 : ℕ) ≤ Q / P) :
    (sharpen3 P Q P SHARPEN_TAU_1X2).pA = (sharpen3 P Q P SHARPEN_TAU_1X2).pH ∧
    (sharpen3 P Q P SHARPEN_TAU_1X2).pD ≤ (sharpen3 P Q P SHARPEN_TAU_1X2).pH ∧
    (sharpen3 P Q P SHARPEN_TAU_1X2).pH ≤ 3731 / 10000 := by
  have htau : SHARPEN_TAU_1X2 = (1.25 : ℝ) := rfl
  have htaupos : (0 : ℝ) < SHARPEN_TAU_1X2 := by rw [htau]; norm_num
  have ha : 0 < P ^ SHARPEN_TAU_1X2 := Real.rpow_pos_of_pos hP _
  have hb : 0 < Q ^ SHARPEN_TAU_1X2 := Real.rpow_pos_of_pos hQ _
  have hZ : 0 < P ^ SHARPEN_TAU_1X2 + Q ^ SHARPEN_TAU_1X2 + P ^ SHARPEN_TAU_1X2 := by
    linarith
  have hifs : (if P ^ SHARPEN_TAU_1X2 + Q ^ SHARPEN_TAU_1X2 + P ^ SHARPEN_TAU_1X2 = 0
      then (1:ℝ)
      else P ^ SHARPEN_TAU_1X2 + Q ^ SHARPEN_TAU_1X2 + P ^ SHARPEN_TAU_1X2)
      = P ^ SHARPEN_TAU_1X2 + Q ^ SHARPEN_TAU_1X2 + P ^ SHARPEN_TAU_1X2 :=
    if_neg (ne_of_gt hZ)
  refine ⟨rfl, ?_, ?_⟩
  · simp only [sharpen3, hifs]
    exact (div_le_div_iff_of_pos_right hZ).mpr
      (Real.rpow_le_rpow hQ.le hQP htaupos.le)
  · simp only [sharpen3, hifs]
    rw [div_le_iff₀ hZ]
    have hr : (0:ℝ) < Q / P := div_pos hQ hP
    have hrpow : Q ^ SHARPEN_TAU_1X2
        = (Q/P) ^ SHARPEN_TAU_1X2 * P ^ SHARPEN_TAU_1X2 := by
      rw [Real.div_rpow hQ.le hP.le, div_mul_cancel₀]
      exact ne_of_gt ha
    have hsplit : (Q/P) ^ SHARPEN_TAU_1X2 = (Q/P) * (Q/P) ^ ((4:ℝ)⁻¹) := by
      rw [htau, show (1.25 : ℝ) = 1 + (4:ℝ)⁻¹ by norm_num,
        Real.rpow_add hr, Real.rpow_one]
    have hcast : (((4:ℕ) : ℝ))⁻¹ = ((4:ℝ))⁻¹ := by norm_num
    have hquarter : (92/100 : ℝ) ≤ (Q/P) ^ ((4:ℝ)⁻¹) := by
      have hc4 : ((92:ℝ)/100) = (((92:ℝ)/100) ^ (4:ℕ)) ^ (((4:ℕ):ℝ))⁻¹ :=
        (Real.pow_rpow_inv_natCast (by norm_num) (by norm_num)).symm
      have hle : (((92:ℝ)/100) ^ (4:ℕ)) ^ (((4:ℕ):ℝ))⁻¹
          ≤ (Q/P) ^ (((4:ℕ):ℝ))⁻¹ :=
        Real.rpow_le_rpow (by positivity) h4 (by norm_num)
      rw [hcast] at hc4 hle
      rw [hc4]
      exact hle
    have hprod : (680708/1000000 : ℝ) ≤ (Q/P) ^ SHARPEN_TAU_1X2 := by
      rw [hsplit]
      have hmm : (7399/10000 : ℝ) * (92/100) ≤ (Q/P) * ((Q/P) ^ ((4:ℝ)⁻¹)) :=
        mul_le_mul h1 hquarter (by norm_num) hr.le
      linarith
    have hkey : (680708/1000000 : ℝ) * P ^ SHARPEN_TAU_1X2 ≤ Q ^ SHARPEN_TAU_1X2 := by
      rw [hrpow]
      exact mul_le_mul_of_nonneg_right hprod ha.le
    linarith [ha.le]

/-- The sharpened 1X2 triple at `lh = la = 5/4`: home equals away, draw does
not exceed home, and the home probability is at most `0.3731`. -/
theorem sharp_cx_facts :
    (sharp1X2 (5/4 : ℝ) (5/4)).pA = (sharp1X2 (5/4 : ℝ) (5/4)).pH ∧
    (sharp1X2 (5/4 : ℝ) (5/4)).pD ≤ (sharp1X2 (5/4 : ℝ) (5/4)).pH ∧
    (sharp1X2 (5/4 : ℝ) (5/4)).pH ≤ 3731 / 10000 := by
  have hc : ((5/4 : ℝ)) = (((5/4 : ℚ) : ℝ)) := by norm_num
  rw [hc]
  have hSpos : (0 : ℚ) < winQ + drawQ + lossQ := by
    have h1 := winQ_pos
    have h2 := drawQ_pos
    rw [lossQ_eq_winQ]
    linarith
  obtain ⟨hH, hD, hA⟩ := probs1X2_rat (5/4) (5/4) 12 (ne_of_gt hSpos)
  rw [show gridSumQ (5/4) (5/4) 12 (fun i j => decide (j < i)) = winQ from rfl,
    show gridSumQ (5/4) (5/4) 12 (fun i j => decide (i = j)) = drawQ from rfl,
    show gridSumQ (5/4) (5/4) 12 (fun i j => decide (i < j)) = lossQ from rfl,
    lossQ_eq_winQ] at hH hD hA
  have hSrpos : (0:ℝ) < ((winQ + drawQ + winQ : ℚ) : ℝ) := by
    have hq : (0 : ℚ) < winQ + drawQ + winQ := by
      linarith [winQ_pos, drawQ_pos]
    exact_mod_cast hq
  have hWr : (0:ℝ) < ((winQ : ℚ) : ℝ) := by exact_mod_cast winQ_pos
  have hDr : (0:ℝ) < ((drawQ : ℚ) : ℝ) := by exact_mod_cast drawQ_pos
  have hgoal : sharp1X2 (((5/4 : ℚ) : ℝ)) (((5/4 : ℚ) : ℝ))
      = sharpen3 (((winQ : ℚ) : ℝ) / ((winQ + drawQ + winQ : ℚ) : ℝ))
          (((drawQ : ℚ) : ℝ) / ((winQ + drawQ + winQ : ℚ) : ℝ))
          (((winQ : ℚ) : ℝ) / ((winQ + drawQ + winQ : ℚ) : ℝ))
          SHARPEN_TAU_1X2 := by
    simp only [sharp1X2]
    rw [hH, hD, hA]
  rw [hgoal]
  have hratio : (((drawQ : ℚ) : ℝ) / ((winQ + drawQ + winQ : ℚ) : ℝ))
      / (((winQ : ℚ) : ℝ) / ((winQ + drawQ + winQ : ℚ) : ℝ))
      = ((drawQ : ℚ) : ℝ) / ((winQ : ℚ) : ℝ) := by
    rw [div_div_div_cancel_right₀]
    exact ne_of_gt hSrpos
  have hratio_cast : ((drawQ : ℚ) : ℝ) / ((winQ : ℚ) : ℝ)
      = (((drawQ / winQ : ℚ)) : ℝ) := by push_cast; ring
  refine sharpen3_sym_bound _ _ (div_pos hWr hSrpos) (div_pos hDr hSrpos)
    ((div_le_div_iff_of_pos_right hSrpos).mpr (by exact_mod_cast drawQ_le_winQ))
    ?_ ?_
  · rw [hratio, hratio_cast]
    have hq : (((7399/10000 : ℚ)) : ℝ) ≤ (((drawQ / winQ : ℚ)) : ℝ) := by
      exact_mod_cast draw_win_ratio_lb
    calc (7399:ℝ)/10000 = (((7399/10000 : ℚ)) : ℝ) := by norm_num
      _ ≤ (((drawQ / winQ : ℚ)) : ℝ) := hq
  · rw [hratio, hratio_cast]
    have h4q := draw_win_ratio_quartic
    have h4r : (((92/100 : ℚ) ^ (4:ℕ) : ℚ) : ℝ) ≤ (((drawQ / winQ : ℚ)) : ℝ) := by
      exact_mod_cast h4q
    calc ((92:ℝ)/100) ^ (4:ℕ) = (((92/100 : ℚ) ^ (4:ℕ) : ℚ) : ℝ) := by push_cast; ring
      _ ≤ (((drawQ / winQ : ℚ)) : ℝ) := h4r

/-- The leading sharpened 1X2 probability at the concrete input is at most
`0.3731`. -/
theorem best1_cx_le : (best1 (5/4 : ℝ) (5/4)).2 ≤ 3731 / 10000 := by
  obtain ⟨hAH, hDH, hHle⟩ := sharp_cx_facts
  have hspec := mergeSort_key_spec (fun p : String × ℝ => p.2)
    [("1", (sharp1X2 (5/4 : ℝ) (5/4)).pH), ("X", (sharp1X2 (5/4 : ℝ) (5/4)).pD),
     ("2", (sharp1X2 (5/4 : ℝ) (5/4)).pA)]
  have hne : ([("1", (sharp1X2 (5/4 : ℝ) (5/4)).pH),
      ("X", (sharp1X2 (5/4 : ℝ) (5/4)).pD),
      ("2", (sharp1X2 (5/4 : ℝ) (5/4)).pA)] : List (String × ℝ)) ≠ [] := by simp
  have hmem : best1 (5/4 : ℝ) (5/4)
      ∈ [("1", (sharp1X2 (5/4 : ℝ) (5/4)).pH), ("X", (sharp1X2 (5/4 : ℝ) (5/4)).pD),
         ("2", (sharp1X2 (5/4 : ℝ) (5/4)).pA)] := (hspec.2.2 hne).1
  simp only [List.mem_cons, List.not_mem_nil, or_false] at hmem
  rcases hmem with h | h | h
  · rw [h]
    exact hHle
  · rw [h]
    exact le_trans hDH hHle
  · rw [h]
    simpa [hAH] using hHle

/-- The truncated Poisson cdf at `k = 2` for the combined rate `5/2`. -/
theorem pU25_cx_eq : pU25of (5/4 : ℝ) (5/4) = (Real.exp (5/2))⁻¹ * (53/8) := by
  have harg : (5/4 : ℝ) + 5/4 = 5/2 := by norm_num
  rw [pU25of, harg, poisCdf]
  simp only [Finset.sum_range_succ, Finset.sum_range_zero, poisPmf, Real.exp_neg]
  norm_num [Nat.factorial]
  ring

/-- The Over/Under candidate at the concrete input: its edge lies strictly
between `0.0438` and `0.0439`, and the leading outcome is Under 2.5. -/
theorem candTot_cx_facts :
    (438/10000 : ℝ) < (candTot (5/4 : ℝ) (5/4)).edge ∧
    (candTot (5/4 : ℝ) (5/4)).edge < 439/10000 := by
  obtain ⟨hXlo, hXhi⟩ := exp_half5_bounds
  have hXpos := Real.exp_pos (5/2 : ℝ)
  have hinv_lo : (12.1825 : ℝ)⁻¹ < (Real.exp (5/2))⁻¹ :=
    inv_lt_inv_of_lt hXpos hXhi
  have hinv_hi : (Real.exp (5/2))⁻¹ < (12.18249 : ℝ)⁻¹ :=
    inv_lt_inv_of_lt (by norm_num) hXlo
  have hU_lo : (5438/10000 : ℝ) < pU25of (5/4 : ℝ) (5/4) := by
    rw [pU25_cx_eq]
    have hnum : (5438/10000 : ℝ) < (12.1825 : ℝ)⁻¹ * (53/8) := by norm_num
    have hstep : (12.1825 : ℝ)⁻¹ * (53/8) < (Real.exp (5/2))⁻¹ * (53/8) :=
      mul_lt_mul_of_pos_right hinv_lo (by norm_num)
    linarith
  have hU_hi : pU25of (5/4 : ℝ) (5/4) < 5439/10000 := by
    rw [pU25_cx_eq]
    have hnum : (12.18249 : ℝ)⁻¹ * (53/8) < 5439/10000 := by norm_num
    have hstep : (Real.exp (5/2))⁻¹ * (53/8) < (12.18249 : ℝ)⁻¹ * (53/8) :=
      mul_lt_mul_of_pos_right hinv_hi (by norm_num)
    linarith
  have hbranch : bestTot (5/4 : ℝ) (5/4) = ("Under 2.5", pU25of (5/4 : ℝ) (5/4)) := by
    rw [bestTot, if_neg]
    rw [pO25of]
    intro hcon
    linarith
  constructor
  · simp only [candTot, hbranch]
    linarith
  · simp only [candTot, hbranch]
    linarith

/-- The BTTS candidate at the concrete input has edge below `0.0438`. -/
theorem candBTTS_cx_lt : (candBTTS (5/4 : ℝ) (5/4)).edge < 438/10000 := by
  obtain ⟨hYlo, hYhi⟩ := exp_quarter5_bounds
  obtain ⟨hXlo, hXhi⟩ := exp_half5_bounds
  have hYpos := Real.exp_pos (5/4 : ℝ)
  have hXpos := Real.exp_pos (5/2 : ℝ)
  have hBval : pBTTSof (5/4 : ℝ) (5/4)
      = 1 - ((Real.exp (5/4))⁻¹ + (Real.exp (5/4))⁻¹ - (Real.exp (5/2))⁻¹) := by
    rw [pBTTSof, show (-(5/4 : ℝ) - 5/4) = -(5/2) by norm_num,
      Real.exp_neg, Real.exp_neg]
  have hinvY_lo : (3.49035 : ℝ)⁻¹ < (Real.exp (5/4))⁻¹ :=
    inv_lt_inv_of_lt hYpos hYhi
  have hinvY_hi : (Real.exp (5/4))⁻¹ < (3.49034 : ℝ)⁻¹ :=
    inv_lt_inv_of_lt (by norm_num) hYlo
  have hinvX_lo : (12.1825 : ℝ)⁻¹ < (Real.exp (5/2))⁻¹ :=
    inv_lt_inv_of_lt hXpos hXhi
  have hinvX_hi : (Real.exp (5/2))⁻¹ < (12.18249 : ℝ)⁻¹ :=
    inv_lt_inv_of_lt (by norm_num) hXlo
  have hB_lo : (1/2 : ℝ) ≤ pBTTSof (5/4 : ℝ) (5/4) := by
    rw [hBval]
    have hnum : (1/2 : ℝ) < 1 - ((3.49034 : ℝ)⁻¹ + (3.49034 : ℝ)⁻¹ - (12.1825 : ℝ)⁻¹) := by
      norm_num
    linarith
  have hB_hi : pBTTSof (5/4 : ℝ) (5/4) < 51/100 := by
    rw [hBval]
    have hnum : 1 - ((3.49035 : ℝ)⁻¹ + (3.49035 : ℝ)⁻¹ - (12.18249 : ℝ)⁻¹) < 51/100 := by
      norm_num
    linarith
  have hbranch : bestBTTS (5/4 : ℝ) (5/4) = ("Yes", pBTTSof (5/4 : ℝ) (5/4)) := by
    rw [bestBTTS, if_pos hB_lo]
  simp only [candBTTS, hbranch]
  linarith

/-- At the concrete input the top-ranked candidate is the Over/Under one. -/
theorem topCand_cx_eq : topCand (5/4 : ℝ) (5/4) = candTot (5/4 : ℝ) (5/4) := by
  have hspec := mergeSort_key_spec Cand.edge (marketCands (5/4 : ℝ) (5/4))
  have hne : marketCands (5/4 : ℝ) (5/4) ≠ [] := by simp [marketCands]
  obtain ⟨hmem, hmax⟩ := hspec.2.2 hne
  have hc1 : (cand1X2 (5/4 : ℝ) (5/4)).edge ≤ 1193/30000 := by
    simp only [cand1X2]
    have := best1_cx_le
    linarith
  have hcT := candTot_cx_facts
  have hcB := candBTTS_cx_lt
  have hTmem : candTot (5/4 : ℝ) (5/4) ∈ marketCands (5/4 : ℝ) (5/4) := by
    simp [marketCands]
  have hTle : (candTot (5/4 : ℝ) (5/4)).edge ≤ (topCand (5/4 : ℝ) (5/4)).edge :=
    hmax _ hTmem
  have hm : topCand (5/4 : ℝ) (5/4) ∈ marketCands (5/4 : ℝ) (5/4) := hmem
  simp only [marketCands, List.mem_cons, List.not_mem_nil, or_false] at hm
  rcases hm with h | h | h
  · exfalso
    rw [h] at hTle
    linarith
  · exact h
  · exfalso
    rw [h] at hTle
    linarith

/-! ## Claim C1 -/

/-- C1 counterexample: at `lh = la = 5/4` the top-ranked candidate is the
Over/Under-2.5 one with edge below the threshold `0.08`; the selector does
not return that top candidate (annotated or not) — it returns the 1X2
candidate instead. -/
theorem C1_counterexample :
    (topCand (5/4 : ℝ) (5/4)).edge < EDGE_MIN ∧
    (topCand (5/4 : ℝ) (5/4)).market = "Over/Under 2.5" ∧
    (chooseStrongest (5/4 : ℝ) (5/4)).market = "1X2" ∧
    chooseStrongest (5/4 : ℝ) (5/4) ≠ topCand (5/4 : ℝ) (5/4) := by
  have htop := topCand_cx_eq
  have hcT := candTot_cx_facts
  have hedge : (topCand (5/4 : ℝ) (5/4)).edge < EDGE_MIN := by
    rw [htop]
    have hEM : EDGE_MIN = (0.08 : ℝ) := rfl
    rw [hEM]
    have := hcT.2
    norm_num at this ⊢
    linarith
  have hmarket : (topCand (5/4 : ℝ) (5/4)).market = "Over/Under 2.5" := by
    rw [htop]
    rfl
  have hchoose : chooseStrongest (5/4 : ℝ) (5/4) = fallback1X2 (5/4 : ℝ) (5/4) := by
    rw [chooseStrongest, if_neg (not_le.mpr hedge)]
  refine ⟨hedge, hmarket, ?_, ?_⟩
  · rw [hchoose]
    rfl
  · intro hcon
    have h1 : (chooseStrongest (5/4 : ℝ) (5/4)).market = "1X2" := by
      rw [hchoose]
      rfl
    rw [hcon, hmarket] at h1
    exact absurd h1 (by decide)

/-- C1 (amended): the selector ranks the three market candidates (leading
1X2 outcome, leading Over/Under-2.5 outcome, leading BTTS outcome) by edge
descending, where each edge is the candidate's probability minus its neutral
baseline (1/3 for 1X2, 1/2 for the binary markets); when the top candidate's
edge reaches `EDGE_MIN` it is returned, and otherwise the selector returns
the leading **1X2** candidate annotated `low-edge-fallback` — which is the
top candidate itself only when 1X2 ranks first — and in every case the
result is one of the three markets, never "no prediction". -/
theorem C1_selector (lh la : ℝ) :
    (rankedCands lh la).Pairwise (fun a b => b.edge ≤ a.edge) ∧
    (rankedCands lh la).Perm (marketCands lh la) ∧
    (cand1X2 lh la).edge = (cand1X2 lh la).prob - 1/3 ∧
    (candTot lh la).edge = (candTot lh la).prob - 1/2 ∧
    (candBTTS lh la).edge = (candBTTS lh la).prob - 1/2 ∧
    (EDGE_MIN ≤ (topCand lh la).edge → chooseStrongest lh la = topCand lh la) ∧
    ((topCand lh la).edge < EDGE_MIN → chooseStrongest lh la = fallback1X2 lh la) ∧
    (fallback1X2 lh la).note = some "low-edge-fallback" ∧
    (chooseStrongest lh la).market ∈ ["1X2", "Over/Under 2.5", "BTTS"] := by
  have hspec := mergeSort_key_spec Cand.edge (marketCands lh la)
  have hne : marketCands lh la ≠ [] := by simp [marketCands]
  refine ⟨hspec.1, hspec.2.1, rfl, rfl, rfl, ?_, ?_, rfl, ?_⟩
  · intro h
    rw [chooseStrongest, if_pos h]
  · intro h
    rw [chooseStrongest, if_neg (not_le.mpr h)]
  · rw [chooseStrongest]
    by_cases h : EDGE_MIN ≤ (topCand lh la).edge
    · rw [if_pos h]
      have hm : topCand lh la ∈ marketCands lh la := (hspec.2.2 hne).1
      simp only [marketCands, List.mem_cons, List.not_mem_nil, or_false] at hm
      rcases hm with h1 | h1 | h1 <;> rw [h1] <;> simp [cand1X2, candTot, candBTTS]
    · rw [if_neg h]
      simp [fallback1X2]

theorem C1_selector_witness :
    (rankedCands 1 1).Pairwise (fun a b => b.edge ≤ a.edge) ∧
    (rankedCands 1 1).Perm (marketCands 1 1) ∧
    (cand1X2 1 1).edge = (cand1X2 1 1).prob - 1/3 ∧
    (candTot 1 1).edge = (candTot 1 1).prob - 1/2 ∧
    (candBTTS 1 1).edge = (candBTTS 1 1).prob - 1/2 ∧
    (EDGE_MIN ≤ (topCand 1 1).edge → chooseStrongest 1 1 = topCand 1 1) ∧
    ((topCand 1 1).edge < EDGE_MIN → chooseStrongest 1 1 = fallback1X2 1 1) ∧
    (fallback1X2 1 1).note = some "low-edge-fallback" ∧
    (chooseStrongest 1 1).market ∈ ["1X2", "Over/Under 2.5", "BTTS"] :=
  C1_selector 1 1

end FootballPred
